import Mathlib

/-!
Shallow embedding of `src/app/api/generate-ai-code-stream/route.ts`.

JavaScript strings are embedded as `List Char` (named `Str`).  Each JS string
operation used by the handler (`startsWith`, `includes`, first-occurrence
`replace`, `trim`, `slice(-100)`, `split(/[\n,]+/)`) is embedded as an
executable Lean function below.  The handler's asynchronous relay loop is
embedded as a fold over the list of text chunks the provider stream yields,
with the stream outcome (normal exhaustion vs. a thrown error) passed as an
explicit `Option Str` error message.
-/

namespace GenStream

/-- A JavaScript string, embedded as its list of characters. -/
abbrev Str := List Char

/-- Characters of a Lean string literal, for writing `Str` constants. -/
def lit (t : String) : Str := t.data

/-! ## JS string primitives -/

/-- JS `haystack.includes(pat)`: `pat` occurs as a contiguous substring. -/
def containsSub (pat : Str) : Str → Bool
  | [] => pat.isEmpty
  | c :: cs => pat.isPrefixOf (c :: cs) || containsSub pat cs

/-- JS `s.replace(pat, rep)` with a string pattern: replaces only the first
occurrence of `pat` in `s` (the occurrence starting leftmost), or returns `s`
unchanged when `pat` does not occur. -/
def replaceFirstL (s pat rep : Str) : Str :=
  match s with
  | [] => if pat.isPrefixOf ([] : Str) then rep else []
  | c :: cs =>
    if pat.isPrefixOf (c :: cs) then rep ++ (c :: cs).drop pat.length
    else c :: replaceFirstL cs pat rep

/-- Whitespace for JS `String.prototype.trim` (the ASCII part of the JS
whitespace set; the handler only ever trims package names and tag bodies). -/
def jsWhitespace (c : Char) : Bool :=
  c == ' ' || c == '\t' || c == '\n' || c == '\r' ||
    c == Char.ofNat 11 || c == Char.ofNat 12

/-- JS `s.trim()`: strip leading and trailing whitespace. -/
def trimL (s : Str) : Str :=
  ((s.dropWhile jsWhitespace).reverse.dropWhile jsWhitespace).reverse

/-- Split on every separator character, keeping empty segments (JS
`split(/[\n,]+/)` splits on runs of separators instead; after the handler's
`trim`-and-drop-empty post-processing the two give the same token list, since
run-splitting differs from character-splitting only by extra empty segments). -/
def splitAny (p : Char → Bool) : Str → List Str
  | [] => [[]]
  | c :: cs =>
    if p c then [] :: splitAny p cs
    else
      match splitAny p cs with
      | [] => [[c]]
      | t :: ts => (c :: t) :: ts

/-- JS `s.slice(-n)`: the last at most `n` characters of `s`. -/
def lastN (n : Nat) (s : Str) : Str := s.drop (s.length - n)

/-! ## The two tag regexes

`/<package>([^<]+)<\/package>/g` and `/<packages>([\s\S]*?)<\/packages>/g`,
run with `exec` in a loop, produce the leftmost non-overlapping matches in
order, each search resuming right after the previous match.  For the first
pattern, `[^<]+` is a maximal run of non-`<` characters (backtracking cannot
help, since the closing tag starts with `<`); for the second, the lazy body is
the text up to the first later occurrence of `</packages>`.  Both scanners are
fuel-indexed so they compute by kernel reduction; every step either fails and
advances one character or matches and advances past the whole match, so with
fuel `s.length + 1` the fuel-exhaustion branch is unreachable. -/

def pkgOpen : Str := lit "<package>"
def pkgClose : Str := lit "</package>"
def pkgsOpen : Str := lit "<packages>"
def pkgsClose : Str := lit "</packages>"

/-- Captured groups of the global matches of `/<package>([^<]+)<\/package>/g`. -/
def pkgScanF : Nat → Str → List Str
  | 0, _ => []
  | _ + 1, [] => []
  | fuel + 1, c :: cs =>
    if pkgOpen.isPrefixOf (c :: cs) then
      let rest := (c :: cs).drop pkgOpen.length
      let name := rest.takeWhile (fun ch => ch != '<')
      let rest2 := rest.dropWhile (fun ch => ch != '<')
      if name ≠ [] ∧ pkgClose.isPrefixOf rest2 then
        name :: pkgScanF fuel (rest2.drop pkgClose.length)
      else pkgScanF fuel cs
    else pkgScanF fuel cs

def pkgScan (s : Str) : List Str := pkgScanF (s.length + 1) s

/-- Split `s` at the first occurrence of `pat`: the text before the
occurrence, and the text after it. `none` when `pat` does not occur. -/
def splitFirst (pat : Str) : Str → Option (Str × Str)
  | [] => if pat.isPrefixOf ([] : Str) then some ([], []) else none
  | c :: cs =>
    if pat.isPrefixOf (c :: cs) then some ([], (c :: cs).drop pat.length)
    else (splitFirst pat cs).map (fun pr => (c :: pr.1, pr.2))

/-- Captured groups of the global matches of
`/<packages>([\s\S]*?)<\/packages>/g`. -/
def pkgsScanF : Nat → Str → List Str
  | 0, _ => []
  | _ + 1, [] => []
  | fuel + 1, c :: cs =>
    if pkgsOpen.isPrefixOf (c :: cs) then
      match splitFirst pkgsClose ((c :: cs).drop pkgsOpen.length) with
      | some (body, rest) => body :: pkgsScanF fuel rest
      | none => pkgsScanF fuel cs
    else pkgsScanF fuel cs

def pkgsScan (s : Str) : List Str := pkgsScanF (s.length + 1) s

/-- Token list of a `<packages>` block body (route.ts lines 162-165):
trim the captured body, split on comma/newline, trim each token, drop
empties. -/
def blockTokens (body : Str) : List Str :=
  ((splitAny (fun c => c == '\n' || c == ',') (trimL body)).map trimL).filter
    (fun t => decide (0 < t.length))

/-! ## Stream events and the relay loop state -/

/-- One server-sent event, as the JSON objects built at route.ts lines
133-136, 149-153, 170-174, 184-189 and 218-221. -/
inductive Ev where
  | text (content : Str)
  | package (name : Str) (message : Str)
  | complete (response : Str) (packages : List Str) (message : Str)
  | error (error : Str)

/-- `📦 Package detected: ${name}` (route.ts lines 152 and 173). -/
def pkgMsgText (name : Str) : Str :=
  Char.ofNat 128230 :: (lit " Package detected: " ++ name)

/-- State of the relay loop: the accumulated `fullResponse`, the rolling
`tagBuffer`, the `packagesToInstall` list, and the events written so far. -/
structure StreamSt where
  fullResponse : Str
  tagBuffer : Str
  packages : List Str
  events : List Ev

/-- Push a package name and emit its `package` event (route.ts lines 148-153
and 169-174). -/
def emitPkg (st : StreamSt) (name : Str) : StreamSt :=
  { st with packages := st.packages ++ [name],
            events := st.events ++ [Ev.package name (pkgMsgText name)] }

/-- Handle one `<package>` capture (route.ts lines 146-154): trim, then push
and emit if non-empty and not already present. -/
def addTagPkg (st : StreamSt) (raw : Str) : StreamSt :=
  if trimL raw ≠ [] ∧ trimL raw ∉ st.packages then emitPkg st (trimL raw)
  else st

/-- Handle one token of a `<packages>` block (route.ts lines 167-176): push
and emit if not already present (tokens are already trimmed and non-empty). -/
def addBlockPkg (st : StreamSt) (pkg : Str) : StreamSt :=
  if pkg ∉ st.packages then emitPkg st pkg else st

/-- Both scan loops of route.ts lines 141-177 over one `searchText`. -/
def scanAll (st : StreamSt) (searchText : Str) : StreamSt :=
  let st2 := (pkgScan searchText).foldl addTagPkg st
  (pkgsScan searchText).foldl
    (fun acc body => (blockTokens body).foldl addBlockPkg acc) st2

/-- One iteration of the relay loop (route.ts lines 128-181): accumulate the
chunk, emit its `text` event, scan `tagBuffer ++ chunk` for tags, then keep
the last 100 characters as the new buffer. -/
def processChunk (st : StreamSt) (text : Str) : StreamSt :=
  let searchText := st.tagBuffer ++ text
  { scanAll
      { st with fullResponse := st.fullResponse ++ text,
                events := st.events ++ [Ev.text text] }
      searchText
    with tagBuffer := lastN 100 searchText }

def initSt : StreamSt :=
  { fullResponse := [], tagBuffer := [], packages := [], events := [] }

/-- The relay loop over the whole chunk sequence. -/
def runChunks (chunks : List Str) : StreamSt := chunks.foldl processChunk initSt

/-- `Generated ${n} characters with ${k} packages` (route.ts line 188). -/
def completeMsgText (resp : Str) (pkgs : List Str) : Str :=
  lit "Generated " ++ lit (toString resp.length) ++ lit " characters with " ++
    lit (toString pkgs.length) ++ lit " packages"

/-! ## Conversation state -/

/-- Modelled from the spec: `ConversationState` is declared in
`@/types/conversation`, which is not among this repository's sources.  Its
shape is taken from the spec's data model ("an ordered sequence of message
records {id, role, content, timestamp, metadata} and a lastUpdated
timestamp") and from the fields the handler touches; the `rest` fields stand
for any further fields of the external object, which the handler never
reads or writes. -/
structure MessageMetadata where
  editType : Option Str
  addedPackages : List Str

structure ConvMessage where
  id : Str
  role : Str
  content : Str
  timestamp : Nat
  metadata : MessageMetadata

structure ConversationContext (α : Type) where
  messages : List ConvMessage
  rest : α

structure ConversationState (α β : Type) where
  context : ConversationContext α
  lastUpdated : Nat
  rest : β

/-- The conversation-state mutation of route.ts lines 192-215.  The calls to
`Date.now()` are embedded as the single external clock reading `now` (the
code reads the clock once per field; none of the proved properties depend on
the values read). -/
def updateConversation {α β : Type} (conv : Option (ConversationState α β))
    (prompt resp : Str) (isEdit : Bool) (pkgs : List Str) (now : Nat) :
    Option (ConversationState α β) :=
  match conv with
  | none => none
  | some cs =>
    some { cs with
      context := { cs.context with
        messages := cs.context.messages ++
          [ { id := lit "msg-" ++ lit (toString now), role := lit "user",
              content := prompt, timestamp := now,
              metadata := { editType := some (if isEdit then lit "edit" else lit "generate"),
                            addedPackages := pkgs } },
            { id := lit "msg-" ++ lit (toString (now + 1)), role := lit "assistant",
              content := resp, timestamp := now,
              metadata := { editType := none, addedPackages := pkgs } } ] },
      lastUpdated := now }

/-! ## The whole streaming closure -/

/-- Result of the async streaming closure (route.ts lines 124-225): the
events written to the SSE stream, the conversation state afterwards, and
whether the writer was closed. -/
structure RunResult (α β : Type) where
  events : List Ev
  conv : Option (ConversationState α β)
  writerClosed : Bool

/-- The async streaming closure.  The provider's `textStream` is embedded as
the chunk list it yields followed by its `outcome`: `none` when iteration
ends normally, `some e` when the model invocation or the iteration throws an
error with message `e` after those chunks.  On normal exhaustion the
`complete` event is emitted and the conversation state updated (route.ts
lines 183-215); on an error the single `error` event is emitted (lines
217-221); the `finally` block closes the writer on both paths (line 223). -/
def runStream {α β : Type} (chunks : List Str) (outcome : Option Str)
    (prompt : Str) (isEdit : Bool) (conv : Option (ConversationState α β))
    (now : Nat) : RunResult α β :=
  let st := runChunks chunks
  match outcome with
  | none =>
    { events := st.events ++
        [Ev.complete st.fullResponse st.packages
          (completeMsgText st.fullResponse st.packages)],
      conv := updateConversation conv prompt st.fullResponse isEdit st.packages now,
      writerClosed := true }
  | some e =>
    { events := st.events ++ [Ev.error e], conv := conv, writerClosed := true }

/-! ## Model selection and the request handler -/

inductive Provider where
  | anthropic
  | openai
  | groq
  | cerebras
  deriving DecidableEq

/-- The model selector (route.ts lines 54-68): a prefix dispatch returning
which provider client is called and with which model-identifier argument. -/
def selectModel (model : Str) : Provider × Str :=
  if (lit "anthropic/").isPrefixOf model then
    (Provider.anthropic, replaceFirstL model (lit "anthropic/") [])
  else if (lit "openai/").isPrefixOf model then
    if containsSub (lit "gpt-oss") model then (Provider.groq, model)
    else (Provider.openai, replaceFirstL model (lit "openai/") [])
  else if (lit "cerebras/").isPrefixOf model then
    (Provider.cerebras, replaceFirstL model (lit "cerebras/") [])
  else (Provider.cerebras, model)

/-- The parsed JSON request body (route.ts lines 33-40).  `none` embeds an
absent (`undefined`) property, for which JS destructuring defaults apply.
The JS number `temperature` is embedded as a rational. -/
structure RequestBody where
  prompt : Option Str
  model : Option Str
  systemPrompt : Option Str
  fileContents : Option Str
  isEdit : Option Bool
  temperature : Option ℚ

def defaultModel : Str := lit "cerebras/qwen-3-235b-a22b-instruct-2507"

/-- Field values after the destructuring with defaults of route.ts lines
33-40 (`prompt` has no default). -/
structure ParsedBody where
  prompt : Option Str
  model : Str
  systemPrompt : Option Str
  fileContents : Option Str
  isEdit : Bool
  temperature : ℚ

def parseBody (b : RequestBody) : ParsedBody :=
  { prompt := b.prompt,
    model := b.model.getD defaultModel,
    systemPrompt := b.systemPrompt,
    fileContents := b.fileContents,
    isEdit := b.isEdit.getD false,
    temperature := b.temperature.getD (7 / 10) }

/-- JS truthiness of an optional string: `undefined` and `''` are falsy. -/
def jsTruthyStr (o : Option Str) : Bool :=
  match o with
  | none => false
  | some s => !s.isEmpty

/-- The fixed instructional template of route.ts lines 73-93, with the
caller's `systemPrompt` interpolated at the end (`${systemPrompt || ''}`). -/
def baseSystemPrompt (systemPrompt : Option Str) : Str :=
  lit "You are an expert React developer. Create modern, responsive React applications using Vite, Tailwind CSS, and best practices.\n\nCRITICAL RULES:\n1. You MUST specify packages using <package> tags BEFORE using them in your code\n2. For example: <package>three</package> or <package>@heroicons/react</package>\n3. ALWAYS return complete files - never truncate with \"...\" or skip lines\n4. Use Tailwind CSS for all styling (no separate CSS files unless specifically requested)\n5. Create clean, modern, responsive designs\n6. Use proper React patterns and hooks\n\nPackage Installation:\n- Use <package>package-name</package> tags for individual packages\n- Or use <packages>package1, package2, package3</packages> for multiple packages\n- The system will automatically install these packages before creating files\n\nFile Structure:\n- Always create files with proper paths (e.g., src/components/Header.jsx)\n- Include all necessary imports\n- Export components properly\n\n" ++
    (systemPrompt.getD [])

/-- System-prompt composition (route.ts lines 73-97): append the file
contents block only when `fileContents` is truthy. -/
def buildSystemPrompt (systemPrompt fileContents : Option Str) : Str :=
  let base := baseSystemPrompt systemPrompt
  if jsTruthyStr fileContents then
    base ++ lit "\n\nCurrent project files:\n" ++ fileContents.getD []
  else base

/-- The arguments of the `streamText` model call (route.ts lines 104-110). -/
structure ModelCall where
  aiModel : Provider × Str
  system : Str
  prompt : Str
  temperature : ℚ
  maxTokens : Nat

/-- The handler's response: either a JSON error response, or the SSE stream
produced by one model call.  The `json` constructor carries no model call
and no stream: returning it means neither was attempted. -/
inductive PostResponse (α β : Type) where
  | json (status : Nat) (error : Str)
  | sse (call : ModelCall) (result : RunResult α β)

/-- The POST handler (route.ts lines 31-243) on an already-parsed body:
validate `prompt`, select the model, build the system prompt, run the model
call and the streaming closure. -/
def POST {α β : Type} (b : RequestBody) (chunks : List Str)
    (outcome : Option Str) (conv : Option (ConversationState α β))
    (now : Nat) : PostResponse α β :=
  let p := parseBody b
  if jsTruthyStr p.prompt then
    PostResponse.sse
      { aiModel := selectModel p.model,
        system := buildSystemPrompt p.systemPrompt p.fileContents,
        prompt := p.prompt.getD [],
        temperature := p.temperature,
        maxTokens := 8000 }
      (runStream chunks outcome (p.prompt.getD []) p.isEdit conv now)
  else PostResponse.json 400 (lit "prompt is required")

/-! ## Event observations -/

/-- Contents of the `text` events of an event list, in order. -/
def textContents (es : List Ev) : List Str :=
  es.filterMap fun e => match e with | Ev.text c => some c | _ => none

/-- Names of the `package` events of an event list, in order. -/
def pkgEventNames (es : List Ev) : List Str :=
  es.filterMap fun e => match e with | Ev.package n _ => some n | _ => none

/-- Number of `error` events in an event list. -/
def errorCount (es : List Ev) : Nat :=
  es.countP fun e => match e with | Ev.error _ => true | _ => false

/-- Number of `complete` events in an event list. -/
def completeCount (es : List Ev) : Nat :=
  es.countP fun e => match e with | Ev.complete _ _ _ => true | _ => false

@[simp] lemma textContents_append (es es' : List Ev) :
    textContents (es ++ es') = textContents es ++ textContents es' := by
  simp [textContents]

@[simp] lemma textContents_text (t : Str) : textContents [Ev.text t] = [t] := rfl

@[simp] lemma textContents_package (n m : Str) :
    textContents [Ev.package n m] = [] := rfl

@[simp] lemma textContents_complete (r : Str) (pk : List Str) (m : Str) :
    textContents [Ev.complete r pk m] = [] := rfl

@[simp] lemma textContents_error (e : Str) : textContents [Ev.error e] = [] := rfl

@[simp] lemma pkgEventNames_append (es es' : List Ev) :
    pkgEventNames (es ++ es') = pkgEventNames es ++ pkgEventNames es' := by
  simp [pkgEventNames]

@[simp] lemma pkgEventNames_text (t : Str) : pkgEventNames [Ev.text t] = [] := rfl

@[simp] lemma pkgEventNames_package (n m : Str) :
    pkgEventNames [Ev.package n m] = [n] := rfl

@[simp] lemma pkgEventNames_complete (r : Str) (pk : List Str) (m : Str) :
    pkgEventNames [Ev.complete r pk m] = [] := rfl

@[simp] lemma pkgEventNames_error (e : Str) : pkgEventNames [Ev.error e] = [] := rfl

@[simp] lemma errorCount_append (es es' : List Ev) :
    errorCount (es ++ es') = errorCount es + errorCount es' := by
  simp [errorCount, List.countP_append]

@[simp] lemma errorCount_text (t : Str) : errorCount [Ev.text t] = 0 := rfl

@[simp] lemma errorCount_package (n m : Str) : errorCount [Ev.package n m] = 0 := rfl

@[simp] lemma errorCount_complete (r : Str) (pk : List Str) (m : Str) :
    errorCount [Ev.complete r pk m] = 0 := rfl

@[simp] lemma errorCount_error (e : Str) : errorCount [Ev.error e] = 1 := rfl

@[simp] lemma completeCount_append (es es' : List Ev) :
    completeCount (es ++ es') = completeCount es + completeCount es' := by
  simp [completeCount, List.countP_append]

@[simp] lemma completeCount_text (t : Str) : completeCount [Ev.text t] = 0 := rfl

@[simp] lemma completeCount_package (n m : Str) :
    completeCount [Ev.package n m] = 0 := rfl

@[simp] lemma completeCount_complete (r : Str) (pk : List Str) (m : Str) :
    completeCount [Ev.complete r pk m] = 1 := rfl

@[simp] lemma completeCount_error (e : Str) : completeCount [Ev.error e] = 0 := rfl

/-! ## The relay-loop invariant -/

/-- Invariant of the relay-loop state: the accumulated response is the
concatenation of the `text` events' contents, the `package` events' names
are exactly `packagesToInstall` (in order, without duplicates), and the loop
itself never emits `error` or `complete` events. -/
def StInv (st : StreamSt) : Prop :=
  st.fullResponse = (textContents st.events).flatten ∧
  pkgEventNames st.events = st.packages ∧
  st.packages.Nodup ∧
  errorCount st.events = 0 ∧
  completeCount st.events = 0

lemma stInv_emitPkg {st : StreamSt} {n : Str} (h : StInv st)
    (hn : n ∉ st.packages) : StInv (emitPkg st n) := by
  obtain ⟨h1, h2, h3, h4, h5⟩ := h
  refine ⟨?_, ?_, ?_, ?_, ?_⟩
  · show st.fullResponse =
      (textContents (st.events ++ [Ev.package n (pkgMsgText n)])).flatten
    simp [h1]
  · show pkgEventNames (st.events ++ [Ev.package n (pkgMsgText n)]) =
      st.packages ++ [n]
    simp [h2]
  · show (st.packages ++ [n]).Nodup
    simp [List.nodup_append, h3, hn]
  · show errorCount (st.events ++ [Ev.package n (pkgMsgText n)]) = 0
    simp [h4]
  · show completeCount (st.events ++ [Ev.package n (pkgMsgText n)]) = 0
    simp [h5]

lemma stInv_addTagPkg (st : StreamSt) (raw : Str) (h : StInv st) :
    StInv (addTagPkg st raw) := by
  unfold addTagPkg
  split
  · next hc => exact stInv_emitPkg h hc.2
  · exact h

lemma stInv_addBlockPkg (st : StreamSt) (pkg : Str) (h : StInv st) :
    StInv (addBlockPkg st pkg) := by
  unfold addBlockPkg
  split
  · next hc => exact stInv_emitPkg h hc
  · exact h

lemma foldl_pres {γ : Type} {P : StreamSt → Prop} {f : StreamSt → γ → StreamSt}
    (hf : ∀ st a, P st → P (f st a)) :
    ∀ (l : List γ) (st : StreamSt), P st → P (l.foldl f st) := by
  intro l
  induction l with
  | nil => intro st h; exact h
  | cons a l ih => intro st h; exact ih (f st a) (hf st a h)

lemma stInv_scanAll (st : StreamSt) (s : Str) (h : StInv st) :
    StInv (scanAll st s) := by
  unfold scanAll
  exact foldl_pres
    (fun st2 body h2 =>
      foldl_pres (fun a b h3 => stInv_addBlockPkg a b h3) (blockTokens body) st2 h2)
    (pkgsScan s) _
    (foldl_pres (fun a b h3 => stInv_addTagPkg a b h3) (pkgScan s) st h)

lemma stInv_processChunk (st : StreamSt) (t : Str) (h : StInv st) :
    StInv (processChunk st t) := by
  obtain ⟨h1, h2, h3, h4, h5⟩ := h
  have htext : StInv { st with fullResponse := st.fullResponse ++ t,
                               events := st.events ++ [Ev.text t] } := by
    refine ⟨?_, ?_, h3, ?_, ?_⟩
    · show st.fullResponse ++ t = (textContents (st.events ++ [Ev.text t])).flatten
      simp [h1]
    · show pkgEventNames (st.events ++ [Ev.text t]) = st.packages
      simp [h2]
    · show errorCount (st.events ++ [Ev.text t]) = 0
      simp [h4]
    · show completeCount (st.events ++ [Ev.text t]) = 0
      simp [h5]
  obtain ⟨g1, g2, g3, g4, g5⟩ := stInv_scanAll _ (st.tagBuffer ++ t) htext
  exact ⟨g1, g2, g3, g4, g5⟩

lemma stInv_init : StInv initSt := ⟨rfl, rfl, List.nodup_nil, rfl, rfl⟩

lemma stInv_runChunks (chunks : List Str) : StInv (runChunks chunks) :=
  foldl_pres (fun a b h3 => stInv_processChunk a b h3) chunks initSt stInv_init

/-! ## Unfolding equations for `runStream` -/

lemma runStream_none_events {α β : Type} (chunks : List Str) (p : Str)
    (ed : Bool) (conv : Option (ConversationState α β)) (now : Nat) :
    (runStream chunks none p ed conv now).events =
      (runChunks chunks).events ++
        [Ev.complete (runChunks chunks).fullResponse (runChunks chunks).packages
          (completeMsgText (runChunks chunks).fullResponse (runChunks chunks).packages)] :=
  rfl

lemma runStream_some_events {α β : Type} (chunks : List Str) (e p : Str)
    (ed : Bool) (conv : Option (ConversationState α β)) (now : Nat) :
    (runStream chunks (some e) p ed conv now).events =
      (runChunks chunks).events ++ [Ev.error e] :=
  rfl

/-! ## Support lemmas for the model selector -/

lemma headNe {a b : Char} {p q m : Str}
    (h : List.isPrefixOf (a :: p) m = true) (hab : b ≠ a) :
    List.isPrefixOf (b :: q) m = false := by
  rw [List.isPrefixOf_iff_prefix] at h
  obtain ⟨t, rfl⟩ := h
  rw [Bool.eq_false_iff]
  intro hc
  rw [List.isPrefixOf_iff_prefix, List.cons_append, List.cons_prefix_cons] at hc
  exact hab hc.1

lemma replaceFirstL_of_pre {p m : Str} (h : p.isPrefixOf m = true) (r : Str) :
    replaceFirstL m p r = r ++ m.drop p.length := by
  cases m with
  | nil =>
    have hp : p = [] := by
      rw [List.isPrefixOf_iff_prefix] at h
      exact List.prefix_nil.mp h
    subst hp
    simp [replaceFirstL]
  | cons c cs => simp [replaceFirstL, h]

lemma litAnthCons : lit "anthropic/" = 'a' :: lit "nthropic/" := rfl

lemma litOpenaiCons : lit "openai/" = 'o' :: lit "penai/" := rfl

lemma litCerebrasCons : lit "cerebras/" = 'c' :: lit "erebras/" := rfl

/-! ## The claims -/

/-- C1: the model selector routes by prefix: `anthropic/` identifiers go to
the anthropic client with the prefix stripped; `openai/` identifiers
containing `gpt-oss` go to the groq client with the full original identifier;
other `openai/` identifiers go to the openai client with the prefix stripped;
`cerebras/` identifiers go to the cerebras client with the prefix stripped;
anything else goes to the cerebras client verbatim. -/
theorem model_selector_routes (m : Str) :
    ((lit "anthropic/").isPrefixOf m = true →
      selectModel m = (Provider.anthropic, m.drop 10)) ∧
    ((lit "openai/").isPrefixOf m = true → containsSub (lit "gpt-oss") m = true →
      selectModel m = (Provider.groq, m)) ∧
    ((lit "openai/").isPrefixOf m = true → containsSub (lit "gpt-oss") m = false →
      selectModel m = (Provider.openai, m.drop 7)) ∧
    ((lit "cerebras/").isPrefixOf m = true →
      selectModel m = (Provider.cerebras, m.drop 9)) ∧
    ((lit "anthropic/").isPrefixOf m = false →
      (lit "openai/").isPrefixOf m = false →
      (lit "cerebras/").isPrefixOf m = false →
      selectModel m = (Provider.cerebras, m)) := by
  refine ⟨?_, ?_, ?_, ?_, ?_⟩
  · intro h
    have hlen : (lit "anthropic/").length = 10 := by decide
    simp [selectModel, h, replaceFirstL_of_pre h, hlen]
  · intro h1 h2
    have h1' : List.isPrefixOf ('o' :: lit "penai/") m = true := by
      rw [← litOpenaiCons]; exact h1
    have hA : (lit "anthropic/").isPrefixOf m = false := by
      rw [litAnthCons]; exact headNe h1' (by decide)
    simp [selectModel, hA, h1, h2]
  · intro h1 h2
    have h1' : List.isPrefixOf ('o' :: lit "penai/") m = true := by
      rw [← litOpenaiCons]; exact h1
    have hA : (lit "anthropic/").isPrefixOf m = false := by
      rw [litAnthCons]; exact headNe h1' (by decide)
    have hlen : (lit "openai/").length = 7 := by decide
    simp [selectModel, hA, h1, h2, replaceFirstL_of_pre h1, hlen]
  · intro h
    have h' : List.isPrefixOf ('c' :: lit "erebras/") m = true := by
      rw [← litCerebrasCons]; exact h
    have hA : (lit "anthropic/").isPrefixOf m = false := by
      rw [litAnthCons]; exact headNe h' (by decide)
    have hO : (lit "openai/").isPrefixOf m = false := by
      rw [litOpenaiCons]; exact headNe h' (by decide)
    have hlen : (lit "cerebras/").length = 9 := by decide
    simp [selectModel, hA, hO, h, replaceFirstL_of_pre h, hlen]
  · intro h1 h2 h3
    simp [selectModel, h1, h2, h3]

theorem model_selector_routes_witness :
    selectModel (lit "anthropic/claude-x") = (Provider.anthropic, lit "claude-x") ∧
    selectModel (lit "openai/gpt-4") = (Provider.openai, lit "gpt-4") ∧
    selectModel (lit "openai/gpt-oss-20b") = (Provider.groq, lit "openai/gpt-oss-20b") ∧
    selectModel (lit "cerebras/foo") = (Provider.cerebras, lit "foo") ∧
    selectModel (lit "unknown-id") = (Provider.cerebras, lit "unknown-id") := by
  refine ⟨?_, ?_, ?_, ?_, ?_⟩
  · rw [(model_selector_routes (lit "anthropic/claude-x")).1 (by decide)]
    decide
  · rw [(model_selector_routes (lit "openai/gpt-4")).2.2.1 (by decide) (by decide)]
    decide
  · exact (model_selector_routes (lit "openai/gpt-oss-20b")).2.1 (by decide) (by decide)
  · rw [(model_selector_routes (lit "cerebras/foo")).2.2.2.1 (by decide)]
    decide
  · exact (model_selector_routes (lit "unknown-id")).2.2.2.2 (by decide) (by decide) (by decide)

/-- C2: a request whose body has `prompt` absent or falsy gets an HTTP 400
JSON error response, with no model call and no stream (the `json` result
carries neither); the destructuring defaults are the fixed cerebras model
identifier for `model`, 0.7 for `temperature`, and `false` for `isEdit`. -/
theorem missing_prompt_rejected {α β : Type} (b : RequestBody)
    (chunks : List Str) (outcome : Option Str)
    (conv : Option (ConversationState α β)) (now : Nat) :
    (jsTruthyStr b.prompt = false →
      POST b chunks outcome conv now =
        PostResponse.json 400 (lit "prompt is required")) ∧
    (b.model = none → (parseBody b).model = defaultModel) ∧
    (b.temperature = none → (parseBody b).temperature = 7 / 10) ∧
    (b.isEdit = none → (parseBody b).isEdit = false) := by
  refine ⟨?_, ?_, ?_, ?_⟩
  · intro h
    have hp : jsTruthyStr (parseBody b).prompt = false := h
    simp [POST, hp]
  · intro h; simp [parseBody, h]
  · intro h; simp [parseBody, h]
  · intro h; simp [parseBody, h]

/-- A request body with every field absent, for the C2 witness. -/
def emptyBody : RequestBody :=
  { prompt := none, model := none, systemPrompt := none, fileContents := none,
    isEdit := none, temperature := none }

theorem missing_prompt_rejected_witness :
    POST (α := Unit) (β := Unit) emptyBody [] none none 0 =
      PostResponse.json 400 (lit "prompt is required") ∧
    (parseBody emptyBody).model = defaultModel ∧
    (parseBody emptyBody).temperature = 7 / 10 ∧
    (parseBody emptyBody).isEdit = false :=
  ⟨(missing_prompt_rejected (α := Unit) (β := Unit) emptyBody [] none none 0).1 rfl,
   (missing_prompt_rejected (α := Unit) (β := Unit) emptyBody [] none none 0).2.1 rfl,
   (missing_prompt_rejected (α := Unit) (β := Unit) emptyBody [] none none 0).2.2.1 rfl,
   (missing_prompt_rejected (α := Unit) (β := Unit) emptyBody [] none none 0).2.2.2 rfl⟩

/-- C3: whenever the provider stream completes without error, the terminal
`complete` event's `response` field is the concatenation, in emission order,
of the `content` fields of all `text` events emitted during the request. -/
theorem complete_response_is_text_concat {α β : Type} (chunks : List Str)
    (p : Str) (ed : Bool) (conv : Option (ConversationState α β)) (now : Nat) :
    ∃ pkgs msg pre,
      (runStream chunks none p ed conv now).events =
        pre ++ [Ev.complete
          ((textContents (runStream chunks none p ed conv now).events).flatten)
          pkgs msg] := by
  have h1 := (stInv_runChunks chunks).1
  refine ⟨(runChunks chunks).packages,
    completeMsgText (runChunks chunks).fullResponse (runChunks chunks).packages,
    (runChunks chunks).events, ?_⟩
  rw [runStream_none_events]
  simp [h1]

/-- C4: for the chunk sequence `"<pack"`, `"age>left-pad</package> ok"` the
scanner emits exactly one `package` event, named `left-pad`; and in every
run, each emitted `package` event carries a name no earlier `package` event
carried (the emitted name list has no duplicates). -/
theorem package_event_unique :
    pkgEventNames (runChunks [lit "<pack", lit "age>left-pad</package> ok"]).events
      = [lit "left-pad"] ∧
    ∀ (chunks : List Str) (outcome : Option Str) (p : Str) (ed : Bool)
      (conv : Option (ConversationState Unit Unit)) (now : Nat),
      (pkgEventNames (runStream chunks outcome p ed conv now).events).Nodup := by
  constructor
  · decide
  · intro chunks outcome p ed conv now
    obtain ⟨-, h2, h3, -, -⟩ := stInv_runChunks chunks
    cases outcome with
    | none =>
      rw [runStream_none_events]
      simpa [h2] using h3
    | some e =>
      rw [runStream_some_events]
      simpa [h2] using h3

/-- The chunk of the C5 scenario. -/
def packagesBlockChunk : Str := lit "<packages>react, lodash\nmoment</packages>"

/-- C5: a chunk holding `<packages>react, lodash\nmoment</packages>` yields
exactly three `package` events — react, lodash, moment, in that order — and
still exactly those three when the same block is echoed again later. -/
theorem packages_block_split :
    pkgEventNames (runChunks [packagesBlockChunk]).events =
      [lit "react", lit "lodash", lit "moment"] ∧
    pkgEventNames (runChunks [packagesBlockChunk, packagesBlockChunk]).events =
      [lit "react", lit "lodash", lit "moment"] := by
  constructor
  · decide
  · decide

/-- C6: after each per-chunk update the rolling tag-scan buffer holds the
last at-most-100 characters of the scanned text, and its length never
exceeds 100. -/
theorem tag_buffer_bounded :
    (∀ (st : StreamSt) (t : Str),
      (processChunk st t).tagBuffer = lastN 100 (st.tagBuffer ++ t)) ∧
    ∀ chunks : List Str, ((runChunks chunks).tagBuffer).length ≤ 100 := by
  have hpc : ∀ (st : StreamSt) (t : Str),
      (processChunk st t).tagBuffer = lastN 100 (st.tagBuffer ++ t) :=
    fun _ _ => rfl
  have hlast : ∀ (n : Nat) (s : Str), (lastN n s).length ≤ n := by
    intro n s
    simp only [lastN, List.length_drop]
    omega
  refine ⟨hpc, ?_⟩
  have haux : ∀ (chunks : List Str) (st : StreamSt),
      st.tagBuffer.length ≤ 100 →
      ((chunks.foldl processChunk st).tagBuffer).length ≤ 100 := by
    intro chunks
    induction chunks with
    | nil => intro st h; exact h
    | cons c l ih =>
      intro st h
      apply ih
      rw [hpc]
      exact hlast 100 _
  intro chunks
  exact haux chunks initSt (by simp [initSt])

/-- C7: with a null conversation state the handler completes the stream
successfully without mutating it; with an existing one, successful stream
exhaustion appends exactly the user-role message (the original prompt, with
edit-vs-generate and package metadata) and the assistant-role message (the
full response, with package metadata), updates `lastUpdated`, and leaves every
other field of the conversation state unchanged. -/
theorem conversation_updated_on_success {α β : Type} (chunks : List Str)
    (p : Str) (ed : Bool) (now : Nat) (cs : ConversationState α β) :
    ((runStream chunks none p ed (none : Option (ConversationState α β)) now).conv
        = none ∧
      (runStream chunks none p ed (none : Option (ConversationState α β)) now).events.getLast?
        = some (Ev.complete (runChunks chunks).fullResponse (runChunks chunks).packages
            (completeMsgText (runChunks chunks).fullResponse (runChunks chunks).packages)) ∧
      (runStream chunks none p ed (none : Option (ConversationState α β)) now).writerClosed
        = true) ∧
    (runStream chunks none p ed (some cs) now).conv =
      some { cs with
        context := { cs.context with
          messages := cs.context.messages ++
            [ { id := lit "msg-" ++ lit (toString now), role := lit "user",
                content := p, timestamp := now,
                metadata := { editType := some (if ed then lit "edit" else lit "generate"),
                              addedPackages := (runChunks chunks).packages } },
              { id := lit "msg-" ++ lit (toString (now + 1)), role := lit "assistant",
                content := (runChunks chunks).fullResponse, timestamp := now,
                metadata := { editType := none,
                              addedPackages := (runChunks chunks).packages } } ] },
        lastUpdated := now } := by
  refine ⟨⟨rfl, ?_, rfl⟩, rfl⟩
  rw [runStream_none_events]
  exact List.getLast?_concat _

/-- C8: when the model invocation or the stream iteration throws, the stream
carries exactly one `error` event, placed last, whose `error` field is the
thrown message; and the writer is closed on both the error path and the
success path. -/
theorem single_error_event_and_writer_closed {α β : Type} (chunks : List Str)
    (e p : Str) (ed : Bool) (conv : Option (ConversationState α β)) (now : Nat) :
    (runStream chunks (some e) p ed conv now).events =
      (runChunks chunks).events ++ [Ev.error e] ∧
    errorCount (runStream chunks (some e) p ed conv now).events = 1 ∧
    (runStream chunks (some e) p ed conv now).writerClosed = true ∧
    (runStream chunks none p ed conv now).writerClosed = true := by
  have h4 := (stInv_runChunks chunks).2.2.2.1
  refine ⟨rfl, ?_, rfl, rfl⟩
  rw [runStream_some_events]
  simp [h4]

/-- The two chunks of the C9 scenario: a well-formed `<package>` tag of
total length 120, split so that the opening tag has left the 100-character
rolling buffer before the closing tag arrives. -/
def longTagChunk1 : Str := lit "<package>" ++ List.replicate 101 'a'

def longTagChunk2 : Str := lit "</package>"

def longTagText : Str :=
  lit "<package>" ++ List.replicate 101 'a' ++ lit "</package>"

/-- C9: there is a chunk sequence containing a well-formed package tag whose
tag text exceeds 100 characters, split across two chunks farther apart than
the rolling-buffer window, for which no `package` event is emitted: the
concatenated stream is exactly the 120-character tag, which the scanner
recognises when given whole, yet the chunked run emits no `package` event. -/
theorem long_tag_blind_spot :
    longTagChunk1 ++ longTagChunk2 = longTagText ∧
    100 < longTagText.length ∧
    pkgScan longTagText = [List.replicate 101 'a'] ∧
    pkgEventNames (runChunks [longTagChunk1, longTagChunk2]).events = [] := by
  refine ⟨by decide, by decide, by decide, by decide⟩

/-- C10: if the stream throws before exhaustion, the external conversation
state is left completely unchanged, and no `complete` event is emitted: the
mutation belongs only to the successful-completion path. -/
theorem conversation_untouched_on_error {α β : Type} (chunks : List Str)
    (e p : Str) (ed : Bool) (conv : Option (ConversationState α β)) (now : Nat) :
    (runStream chunks (some e) p ed conv now).conv = conv ∧
    completeCount (runStream chunks (some e) p ed conv now).events = 0 := by
  have h5 := (stInv_runChunks chunks).2.2.2.2
  refine ⟨rfl, ?_⟩
  rw [runStream_some_events]
  simp [h5]

end GenStream
